import Mathlib

/-!
Verification development for the `InvoiceAnalyzer` document-analysis core
(`model_engine.py`).  The analyzer is deterministic rule-based text
processing: a keyword classifier, a three-tier regex cascade for the
monetary amount, currency/vendor heuristics and an additive confidence
score.  Everything is embedded shallowly over `List Char`:

* Python strings become `String` / `List Char`; `str.lower`, `str.strip`,
  `str.split` are modelled character by character (the ASCII whitespace
  set `' '`, `'\t'`, `'\n'`, `'\r'`).
* Python floats become `ℚ`.  Every numeric token the regexes can capture
  is a decimal numeral with at most one point, so `float(...)` is exact
  on them and never raises; `ℚ` represents those values exactly.
* The concrete regular expressions of `_extract_amount` are implemented
  as dedicated matchers with Python's leftmost / greedy semantics
  (backtracking is reproduced in the one place it can fire, the
  `\d{1,3}(?:,\d{3})+` pattern).
* The OCR / file-reading stages (`cv2`, `pytesseract`, `pdf2image`) are
  I/O; `analyze_document` is modelled as a function of the outcome of
  that extraction stage, an `Except String String` (raised exception or
  extracted text), which is exactly the information the orchestrator's
  `try`/`except` boundary consumes.
-/

namespace InvoiceAnalyzer

/-- Python's substring test `needle in hay`, over character lists. -/
def containsSub : List Char → List Char → Bool
  | [], needle => needle.isEmpty
  | c :: t, needle => needle.isPrefixOf (c :: t) || containsSub t needle

/-- `str.lower()` (ASCII case folding, enough for the analyzer's tables). -/
def toLowerL (s : List Char) : List Char := s.map Char.toLower

/-- `str.strip()`: drop leading and trailing whitespace. -/
def trimL (s : List Char) : List Char :=
  ((s.dropWhile Char.isWhitespace).reverse.dropWhile Char.isWhitespace).reverse

/-- `text.split('\n')`: split at every newline, keeping empty pieces. -/
def splitNl : List Char → List (List Char)
  | [] => [[]]
  | c :: t =>
    let r := splitNl t
    if c = '\n' then [] :: r
    else
      match r with
      | h :: rest => (c :: h) :: rest
      | [] => [[ c ]]

/-- `' '.join(lines)`. -/
def joinSpaces : List (List Char) → List Char
  | [] => []
  | [l] => l
  | l :: ls => l ++ ' ' :: joinSpaces ls

/-- `len(text.split())`: number of maximal non-whitespace runs. -/
def countWordsAux : Bool → List Char → Nat
  | _, [] => 0
  | inWord, c :: rest =>
    if c.isWhitespace then countWordsAux false rest
    else (if inWord then 0 else 1) + countWordsAux true rest

def countWords (s : List Char) : Nat := countWordsAux false s

/-! ### Configuration tables (`InvoiceAnalyzer.__init__`) -/

/-- The `'invoice'` entry of `document_keywords`. -/
def invoice_keywords : List String :=
  [ "invoice", "bill", "inv no", "invoice no", "invoice #" ]

/-- The `'receipt'` entry of `document_keywords`. -/
def receipt_keywords : List String :=
  [ "receipt", "payment received", "paid" ]

/-- The `'bill'` entry of `document_keywords`. -/
def bill_keywords : List String :=
  [ "bill", "statement", "amount due" ]

/-- `self.document_keywords`, in Python dict insertion order. -/
def document_keywords : List (String × List String) :=
  [( "invoice", invoice_keywords),
   ( "receipt", receipt_keywords),
   ( "bill", bill_keywords)]

/-- `self.currency_symbols`, in Python dict insertion order. -/
def currency_symbols : List (List Char × String) :=
  [([ '$' ], "USD"), ([ '€' ], "EUR"), ([ '£' ], "GBP"), ([ '¥' ], "JPY"),
   ([ '₹' ], "INR"), ([ 'R', 's' ], "INR"), ([ 'P', 'K', 'R' ], "PKR")]

/-! ### `_classify_document` -/

/-- `sum(1 for keyword in keywords if keyword in text_lower)`. -/
def keywordScore (lowered : List Char) (kws : List String) : Nat :=
  kws.countP (fun k => containsSub lowered k.toList)

/-- Python's `max(scores, key=scores.get)`: the first key attaining the
maximal value (later entries replace only on a strictly greater score). -/
def pickFirstMax (p : String × Nat) (rest : List (String × Nat)) : String × Nat :=
  rest.foldl (fun best q => if best.2 < q.2 then q else best) p

/-- `InvoiceAnalyzer._classify_document`. -/
def classify_document (text : String) : String :=
  let lowered := toLowerL text.toList
  let scores := document_keywords.map (fun p => (p.1, keywordScore lowered p.2))
  let maxVal := (scores.map Prod.snd).foldl max 0
  if 0 < maxVal then
    match scores with
    | [] => "invoice"
    | p :: rest => (pickFirstMax p rest).1
  else "invoice"

/-! ### The regex machinery of `_extract_amount`

The number core shared by the Tier-1 patterns and by the Tier-2 / Tier-3
`$`-patterns is `\d{1,3}(?:,\d{3})*(?:\.\d{2})?`.  Since the two trailing
groups can match the empty string and nothing follows the capture group
in any of those patterns, Python's backtracking engine behaves purely
greedily here, which the functions below implement directly. -/

/-- Case-insensitive literal match (`re.IGNORECASE`); returns the rest. -/
def eatLitCI : List Char → List Char → Option (List Char)
  | [], s => some s
  | _ :: _, [] => none
  | c :: cs, d :: ds => if d.toLower = c.toLower then eatLitCI cs ds else none

/-- An optional literal character (`\$?`, `\.?`). -/
def eatOptChar (c : Char) (s : List Char) : List Char :=
  match s with
  | d :: rest => if d = c then rest else s
  | [] => s

/-- `\d{1,3}` under greedy matching: one to three leading digits. -/
def eatDigitsUpTo3 (s : List Char) : Option (List Char × List Char) :=
  match s with
  | [] => none
  | a :: r1 =>
    if a.isDigit then
      match r1 with
      | b :: r2 =>
        if b.isDigit then
          match r2 with
          | c :: r3 => if c.isDigit then some ([a, b, c], r3) else some ([a, b], r2)
          | [] => some ([a, b], [])
        else some ([a], r1)
      | [] => some ([a], [])
    else none

/-- `(?:,\d{3})*` under greedy matching: consumed characters and rest. -/
def eatCommaGroups (s : List Char) : List Char × List Char :=
  match s with
  | c :: a :: b :: d :: rest =>
    if (c == ',') && a.isDigit && b.isDigit && d.isDigit then
      let p := eatCommaGroups rest
      (c :: a :: b :: d :: p.1, p.2)
    else ([], s)
  | _ => ([], s)

/-- `(?:\.\d{2})?` under greedy matching: consumed characters and rest. -/
def eatDecimal (s : List Char) : List Char × List Char :=
  match s with
  | c :: a :: b :: rest =>
    if (c == '.') && a.isDigit && b.isDigit then ([c, a, b], rest) else ([], s)
  | _ => ([], s)

/-- The capture group `(\d{1,3}(?:,\d{3})*(?:\.\d{2})?)` matched at the
head of `s`: captured characters plus the remaining input. -/
def matchNumber (s : List Char) : Option (List Char × List Char) :=
  match eatDigitsUpTo3 s with
  | none => none
  | some (ds, r1) =>
    let cg := eatCommaGroups r1
    let dec := eatDecimal cg.2
    some (ds ++ cg.1 ++ dec.1, dec.2)

/-- Digit string to its integer value. -/
def digitsVal (ds : List Char) : Nat :=
  ds.foldl (fun n c => n * 10 + (c.toNat - 48)) 0

/-- `float(match.group(1).replace(',', '').replace(' ', ''))`.  Every
capturable group is digits with at most one `,`/`.`/space structure, so
the conversion is total (the `try`/`except` in the source never fires). -/
def parseAmount (g : List Char) : ℚ :=
  let cleaned := g.filter (fun c => !(c == ',') && !(c == ' '))
  let ip := cleaned.takeWhile (fun c => !(c == '.'))
  let rest := cleaned.dropWhile (fun c => !(c == '.'))
  match rest with
  | [] => (digitsVal ip : ℚ)
  | _ :: frac => (digitsVal ip : ℚ) + (digitsVal frac : ℚ) / ((10 : ℚ) ^ frac.length)

/-- `\s*` between the literal words of a Tier-1 label, then the word. -/
def eatWords : List (List Char) → List Char → Option (List Char)
  | [], s => some s
  | w :: ws, s =>
    match eatLitCI w s with
    | none => none
    | some r =>
      match ws with
      | [] => some r
      | _ :: _ => eatWords ws (r.dropWhile Char.isWhitespace)

/-- One Tier-1 pattern `<label>[\s:]*\$?\s*(NUMBER)` matched at the head
of `s`; produces the captured number group. -/
def matchLabelAt (words : List (List Char)) (s : List Char) : Option (List Char) :=
  match eatWords words s with
  | none => none
  | some r =>
    let r1 := r.dropWhile (fun c => c.isWhitespace || c == ':')
    let r2 := eatOptChar '$' r1
    let r3 := r2.dropWhile Char.isWhitespace
    match matchNumber r3 with
    | some (g, _) => some g
    | none => none

/-- `re.finditer` + `return` on the first hit: the leftmost match. -/
def findLabelNum (words : List (List Char)) : List Char → Option (List Char)
  | [] => none
  | c :: t =>
    match matchLabelAt words (c :: t) with
    | some g => some g
    | none => findLabelNum words t

/-- Tier 1 of `_extract_amount`: the four `priority_patterns` in order;
the first pattern that matches anywhere returns its leftmost match. -/
def tier1Amount (s : List Char) : Option ℚ :=
  ((findLabelNum [ "total".toList, "amount".toList ] s).map parseAmount) <|>
  ((findLabelNum [ "total".toList ] s).map parseAmount) <|>
  ((findLabelNum [ "amount".toList, "due".toList ] s).map parseAmount) <|>
  ((findLabelNum [ "grand".toList, "total".toList ] s).map parseAmount)

/-- The Tier-2 pattern `\$?\s*(NUMBER)` matched at the head of `s`:
captured group plus the rest of the input after the match. -/
def matchAmountAt (s : List Char) : Option (List Char × List Char) :=
  matchNumber ((eatOptChar '$' s).dropWhile Char.isWhitespace)

/-- `re.finditer` with a match function `m`: scan left to right, emit
each non-overlapping match's parsed group, resuming after the match.
The fuel is the scan length; either branch consumes at least one
character, so `s.length` fuel never runs out. -/
def scanWith (m : List Char → Option (List Char × List Char)) : Nat → List Char → List ℚ
  | 0, _ => []
  | _, [] => []
  | Nat.succ fuel, c :: t =>
    match m (c :: t) with
    | some (g, rest) => parseAmount g :: scanWith m fuel rest
    | none => scanWith m fuel t

/-- All matches of the Tier-2 `amount_pattern` in a context string. -/
def findAllNums (s : List Char) : List ℚ := scanWith matchAmountAt s.length s

/-- Tier 2 of `_extract_amount`: for every line containing `total`, all
amounts above 100 in that line and its immediate neighbours. -/
def tier2amounts (lines : List (List Char)) : List ℚ :=
  ((List.range lines.length).map (fun i =>
    if containsSub (toLowerL (lines.getD i [])) ( "total".toList) then
      let lo := i - 1
      let hi := min lines.length (i + 2)
      let ctx := joinSpaces ((lines.drop lo).take (hi - lo))
      (findAllNums ctx).filter (fun a => (100 : ℚ) < a)
    else [])).flatten

/-- Fallback pattern (a), `\$\s*(NUMBER)`, at the head of `s`. -/
def matchDollarAt (s : List Char) : Option (List Char × List Char) :=
  match s with
  | c :: t => if c = '$' then matchNumber (t.dropWhile Char.isWhitespace) else none
  | [] => none

/-- Exactly `k` digits at the head of `s`. -/
def takeDigits : Nat → List Char → Option (List Char × List Char)
  | 0, s => some ([], s)
  | _ + 1, [] => none
  | k + 1, c :: t =>
    if c.isDigit then
      match takeDigits k t with
      | some (ds, r) => some (c :: ds, r)
      | none => none
    else none

/-- `\d{k}(?:,\d{3})+` at the head of `s`, for a fixed digit count `k`. -/
def tryDigitsK (k : Nat) (s : List Char) : Option (List Char × List Char) :=
  match takeDigits k s with
  | some (ds, r) =>
    let p := eatCommaGroups r
    if p.1.isEmpty then none else some (ds ++ p.1, p.2)
  | none => none

/-- Fallback pattern (b), `(\d{1,3}(?:,\d{3})+)`, at the head of `s`.
Python backtracks over the `{1,3}` count when the mandatory comma group
fails, so the three counts are tried greedily from 3 down to 1. -/
def matchCommaNum (s : List Char) : Option (List Char × List Char) :=
  tryDigitsK 3 s <|> tryDigitsK 2 s <|> tryDigitsK 1 s

/-- The group `(\d+[,.]?\d*)` of fallback pattern (c), at the head. -/
def matchRsNum (s : List Char) : Option (List Char × List Char) :=
  let ds := s.takeWhile Char.isDigit
  if ds.isEmpty then none
  else
    let r1 := s.dropWhile Char.isDigit
    match r1 with
    | c :: t =>
      if c = ',' || c = '.' then
        some (ds ++ c :: t.takeWhile Char.isDigit, t.dropWhile Char.isDigit)
      else some (ds, r1)
    | [] => some (ds, [])

/-- Fallback pattern (c), `(?:Rs\.?|PKR)\s*(\d+[,.]?\d*)`, at the head
(case-insensitive). -/
def matchRsAt (s : List Char) : Option (List Char × List Char) :=
  let afterLabel : Option (List Char) :=
    match eatLitCI ( "rs".toList) s with
    | some r => some (eatOptChar '.' r)
    | none => eatLitCI ( "pkr".toList) s
  match afterLabel with
  | none => none
  | some r => matchRsNum (r.dropWhile Char.isWhitespace)

/-- Tier 3 of `_extract_amount`: the three fallback patterns scanned over
the whole text, keeping the amounts above 10. -/
def tier3amounts (s : List Char) : List ℚ :=
  ((scanWith matchDollarAt s.length s) ++
   (scanWith matchCommaNum s.length s) ++
   (scanWith matchRsAt s.length s)).filter (fun a => (10 : ℚ) < a)

/-- Python's `max` over a nonempty list (`0` on `[]`, unreachable in the
source because of the emptiness guards). -/
def listMax : List ℚ → ℚ
  | [] => 0
  | a :: rest => rest.foldl max a

/-- `InvoiceAnalyzer._extract_amount`. -/
def extract_amount (text : String) : ℚ :=
  match tier1Amount text.toList with
  | some a => a
  | none =>
    let t2 := tier2amounts (splitNl text.toList)
    if t2 ≠ [] then listMax t2
    else
      let t3 := tier3amounts text.toList
      if t3 ≠ [] then listMax t3
      else 0

/-! ### `_extract_currency`, `_extract_vendor`, `_calculate_confidence` -/

/-- `InvoiceAnalyzer._extract_currency`. -/
def extract_currency (text : String) : String :=
  match currency_symbols.find? (fun p => containsSub text.toList p.1) with
  | some p => p.2
  | none => "USD"

/-- `noise_words` of `_extract_vendor`. -/
def noise_words : List String := [ "invoice", "receipt", "bill", "tax", "date" ]

/-- The qualification test of `_extract_vendor`'s loop body. -/
def vendorLineOk (line : List Char) : Bool :=
  decide (3 < line.length) &&
    noise_words.all (fun w => !(containsSub (toLowerL line) w.toList))

/-- The stripped, non-empty lines of the text. -/
def vendorLines (text : String) : List (List Char) :=
  ((splitNl text.toList).map trimL).filter (fun l => !l.isEmpty)

/-- The `for line in lines[:5]` loop of `_extract_vendor`. -/
def vendorLoop : List (List Char) → String
  | [] => "Unknown Vendor"
  | l :: rest => if vendorLineOk l then String.mk (l.take 100) else vendorLoop rest

/-- `InvoiceAnalyzer._extract_vendor`. -/
def extract_vendor (text : String) : String :=
  vendorLoop ((vendorLines text).take 5)

/-- `InvoiceAnalyzer._calculate_confidence`.  `re.search(r'\d+\.?\d*',
text)` succeeds exactly when the text contains a digit (the pattern's
tail is optional), so `has_amount` is a digit-presence test. -/
def calculate_confidence (text : String) : ℚ :=
  if text.isEmpty then 0
  else
    let s := text.toList
    let has_amount := s.any Char.isDigit
    let has_keywords :=
      ((document_keywords.map Prod.snd).flatten).any
        (fun k => containsSub (toLowerL s) k.toList)
    let text_length := countWords s
    let c : ℚ := (if has_amount then 4 / 10 else 0) +
      (if has_keywords then 3 / 10 else 0) +
      (if 20 < text_length then 3 / 10 else 0)
    min c 1

/-! ### The orchestrator `analyze_document` -/

/-- The result dictionary shape produced by `analyze_document`. -/
structure AnalysisResult where
  document_type : String
  total_amount : ℚ
  currency : String
  vendor_name : String
  text : String
  confidence : ℚ
  status : String
  error : Option String
deriving Repr, DecidableEq

/-- The `except` branch of `analyze_document`. -/
def errorResult (msg : String) : AnalysisResult :=
  { document_type := "unknown", total_amount := 0, currency := "USD",
    vendor_name := "Unknown", text := "", confidence := 0,
    status := "error", error := some msg }

/-- `InvoiceAnalyzer.analyze_document`, as a function of the outcome of
the text-extraction stage: `Except.error e` models an exception raised
while reading/OCRing the file, `Except.ok text` a successful extraction.
The `ValueError` raised on blank text and any earlier exception are both
caught by the single `try`/`except` boundary. -/
def analyze_document (extraction : Except String String) : AnalysisResult :=
  match extraction with
  | Except.error e => errorResult e
  | Except.ok text =>
    if (trimL text.toList).isEmpty then
      errorResult "No text could be extracted from document"
    else
      { document_type := classify_document text
        total_amount := extract_amount text
        currency := extract_currency text
        vendor_name := extract_vendor text
        text := text
        confidence := calculate_confidence text
        status := "success"
        error := none }

/-- The keywords of categories other than the shared keyword `bill`. -/
def nonBillKeywords : List String :=
  [ "invoice", "inv no", "invoice no", "invoice #",
    "receipt", "payment received", "paid",
    "statement", "amount due" ]

/-! ## Theorems -/

/-- `_classify_document` in closed form: Python's `max(scores,
key=scores.get)` picks the first key of maximal score in the dict order
`invoice, receipt, bill`, and an all-zero score falls back to
`invoice`. -/
theorem classify_spec (text : String) :
    classify_document text =
      (if keywordScore (toLowerL text.toList) receipt_keywords ≤
            keywordScore (toLowerL text.toList) invoice_keywords ∧
          keywordScore (toLowerL text.toList) bill_keywords ≤
            keywordScore (toLowerL text.toList) invoice_keywords
       then "invoice"
       else if keywordScore (toLowerL text.toList) bill_keywords ≤
            keywordScore (toLowerL text.toList) receipt_keywords
       then "receipt" else "bill") := by
  simp only [classify_document, document_keywords, List.map, List.foldl, pickFirstMax]
  generalize keywordScore (toLowerL text.toList) invoice_keywords = si
  generalize keywordScore (toLowerL text.toList) receipt_keywords = sr
  generalize keywordScore (toLowerL text.toList) bill_keywords = sb
  simp only [lt_max_iff, lt_self_iff_false, false_or]
  split_ifs <;> simp_all <;> omega

/-- C1: `analyze_document` never lets an exception escape: it is a total
function of the extraction outcome, any raised exception is converted to
the error result carrying the documented defaults
(`document_type="unknown"`, `total_amount=0.0`, `currency="USD"`,
`vendor_name="Unknown"`, empty text, `confidence=0.0`, `status="error"`)
plus the error message, and every other outcome is a success result. -/
theorem analyze_document_error_containment :
    (∀ e, analyze_document (Except.error e) = errorResult e) ∧
    (∀ msg, (errorResult msg).status = "error" ∧
      (errorResult msg).document_type = "unknown" ∧
      (errorResult msg).total_amount = 0 ∧
      (errorResult msg).currency = "USD" ∧
      (errorResult msg).vendor_name = "Unknown" ∧
      (errorResult msg).text = "" ∧
      (errorResult msg).confidence = 0 ∧
      (errorResult msg).error = some msg) ∧
    (∀ ext, (analyze_document ext).status = "success" ∨
      ∃ msg, analyze_document ext = errorResult msg) := by
  refine ⟨fun e => rfl, fun msg => ⟨rfl, rfl, rfl, rfl, rfl, rfl, rfl, rfl⟩, fun ext => ?_⟩
  match ext with
  | Except.error e => exact Or.inr ⟨e, rfl⟩
  | Except.ok t =>
    by_cases h : (trimL t.toList).isEmpty = true
    · refine Or.inr ⟨ "No text could be extracted from document", ?_⟩
      simp only [analyze_document]
      rw [if_pos h]
    · refine Or.inl ?_
      simp only [analyze_document]
      rw [if_neg h]

/-- C2: when the extraction stage yields a whitespace-only text,
`analyze_document` produces the error result (never a success), with
`total_amount = 0`, `currency = "USD"`, `vendor_name = "Unknown"` and the
non-empty message that no text could be extracted. -/
theorem analyze_document_blank_text (t : String)
    (h : (trimL t.toList).isEmpty = true) :
    analyze_document (Except.ok t) = errorResult "No text could be extracted from document" ∧
    (analyze_document (Except.ok t)).status = "error" ∧
    (analyze_document (Except.ok t)).status ≠ "success" ∧
    (analyze_document (Except.ok t)).total_amount = 0 ∧
    (analyze_document (Except.ok t)).currency = "USD" ∧
    (analyze_document (Except.ok t)).vendor_name = "Unknown" ∧
    (analyze_document (Except.ok t)).error = some "No text could be extracted from document" ∧
    ( "No text could be extracted from document" : String) ≠ "" := by
  have h1 : analyze_document (Except.ok t) =
      errorResult "No text could be extracted from document" := by
    simp only [analyze_document]
    rw [if_pos h]
  rw [h1]
  exact ⟨rfl, rfl, by decide, rfl, rfl, rfl, rfl, by decide⟩

/-- Witness for C2, at the whitespace-only extraction `"  \n "`. -/
theorem analyze_document_blank_text_witness :
    (trimL ( "  \n ").toList).isEmpty = true ∧
    analyze_document (Except.ok "  \n ") =
      errorResult "No text could be extracted from document" := by
  have h : (trimL ( "  \n ").toList).isEmpty = true := by decide
  exact ⟨h, (analyze_document_blank_text "  \n " h).1⟩

/-- C6: `_extract_currency` returns the code of the first symbol of the
table `$, €, £, ¥, ₹, Rs, PKR` (in that enumeration order) occurring as a
substring, `"USD"` when none occurs; text containing only `€` gives
`"EUR"`, text containing both `€` and `$` gives `"USD"`. -/
theorem extract_currency_order :
    (∀ text, extract_currency text =
      (if containsSub text.toList [ '$' ] then "USD"
       else if containsSub text.toList [ '€' ] then "EUR"
       else if containsSub text.toList [ '£' ] then "GBP"
       else if containsSub text.toList [ '¥' ] then "JPY"
       else if containsSub text.toList [ '₹' ] then "INR"
       else if containsSub text.toList [ 'R', 's' ] then "INR"
       else if containsSub text.toList [ 'P', 'K', 'R' ] then "PKR"
       else "USD")) ∧
    extract_currency "prix € 9" = "EUR" ∧
    extract_currency "€ and $ both" = "USD" := by
  refine ⟨fun text => ?_, by decide, by decide⟩
  simp only [extract_currency, currency_symbols, List.find?]
  cases containsSub text.toList [ '$' ] <;>
    cases containsSub text.toList [ '€' ] <;>
    cases containsSub text.toList [ '£' ] <;>
    cases containsSub text.toList [ '¥' ] <;>
    cases containsSub text.toList [ '₹' ] <;>
    cases containsSub text.toList [ 'R', 's' ] <;>
    cases containsSub text.toList [ 'P', 'K', 'R' ] <;>
    rfl

/-- The `for line in lines[:5]` loop returns the first qualifying line. -/
theorem vendorLoop_eq_find (ls : List (List Char)) :
    vendorLoop ls =
      (match ls.find? vendorLineOk with
       | some l => String.mk (l.take 100)
       | none => "Unknown Vendor") := by
  induction ls with
  | nil => rfl
  | cons l rest ih =>
    by_cases h : vendorLineOk l = true
    · simp [vendorLoop, List.find?, h]
    · simp [vendorLoop, List.find?, h, ih]

/-- C7: `_extract_vendor` returns the first of the first 5 stripped
non-empty lines that is longer than 3 characters and noise-free,
truncated to 100 characters, and `"Unknown Vendor"` otherwise; the lines
`["ABC Company", "Invoice #123", "Total: $10"]` yield `"ABC Company"`. -/
theorem extract_vendor_first_qualifying :
    (∀ text, extract_vendor text =
      (match ((vendorLines text).take 5).find? vendorLineOk with
       | some l => String.mk (l.take 100)
       | none => "Unknown Vendor")) ∧
    extract_vendor "ABC Company\nInvoice #123\nTotal: $10" = "ABC Company" := by
  exact ⟨fun text => vendorLoop_eq_find _, by decide⟩

/-- C8: `_calculate_confidence` is always within `[0, 1]`, is exactly `0`
on the empty text, and otherwise is the capped sum of `0.4` for a digit,
`0.3` for a classifier keyword, `0.3` for more than 20 words. -/
theorem calculate_confidence_range :
    (∀ text, 0 ≤ calculate_confidence text ∧ calculate_confidence text ≤ 1) ∧
    calculate_confidence "" = 0 ∧
    (∀ text, calculate_confidence text =
      (if text.isEmpty then 0
       else min ((if text.toList.any Char.isDigit then (4 : ℚ) / 10 else 0) +
         (if ((document_keywords.map Prod.snd).flatten).any
             (fun k => containsSub (toLowerL text.toList) k.toList) then (3 : ℚ) / 10 else 0) +
         (if 20 < countWords text.toList then (3 : ℚ) / 10 else 0)) 1)) := by
  refine ⟨fun text => ?_, rfl, fun text => rfl⟩
  by_cases he : text.isEmpty = true
  · simp [calculate_confidence, he]
  · simp only [calculate_confidence, he, if_false]
    constructor
    · refine le_min ?_ (by norm_num)
      split_ifs <;> norm_num
    · exact min_le_right _ _

/-- C4: `_classify_document` scores each category by its keywords found
as case-insensitive substrings, returns the strictly best category,
breaks ties by the enumeration order `invoice, receipt, bill`, and
defaults to `"invoice"` when every score is zero; `"receipt invoice"`
(a 1–1 tie) classifies as `"invoice"`, a keyword-free text too. -/
theorem classify_document_scoring :
    (∀ text : String, classify_document text =
      (if keywordScore (toLowerL text.toList) receipt_keywords ≤
            keywordScore (toLowerL text.toList) invoice_keywords ∧
          keywordScore (toLowerL text.toList) bill_keywords ≤
            keywordScore (toLowerL text.toList) invoice_keywords
       then "invoice"
       else if keywordScore (toLowerL text.toList) bill_keywords ≤
            keywordScore (toLowerL text.toList) receipt_keywords
       then "receipt" else "bill")) ∧
    classify_document "receipt invoice" = "invoice" ∧
    classify_document "no keywords at all" = "invoice" := by
  exact ⟨classify_spec, by decide, by decide⟩

/-- C10: the keyword `"bill"` appears in both the `invoice` and the
`bill` keyword lists, so any occurrence of `"bill"` also raises the
invoice score; a text whose only matching keyword is `"bill"` scores a
1–1 tie and classifies as `"invoice"`, and `_classify_document` can only
answer `"bill"` when `"statement"` or `"amount due"` also occurs. -/
theorem bill_keyword_overlap :
    (( "bill" : String) ∈ invoice_keywords ∧ ( "bill" : String) ∈ bill_keywords) ∧
    (∀ text : String, containsSub (toLowerL text.toList) ( "bill".toList) = true →
      1 ≤ keywordScore (toLowerL text.toList) invoice_keywords) ∧
    (∀ text : String, containsSub (toLowerL text.toList) ( "bill".toList) = true →
      (∀ k ∈ nonBillKeywords, containsSub (toLowerL text.toList) k.toList = false) →
      keywordScore (toLowerL text.toList) invoice_keywords = 1 ∧
      keywordScore (toLowerL text.toList) receipt_keywords = 0 ∧
      keywordScore (toLowerL text.toList) bill_keywords = 1 ∧
      classify_document text = "invoice") ∧
    (∀ text : String, classify_document text = "bill" →
      containsSub (toLowerL text.toList) ( "statement".toList) = true ∨
      containsSub (toLowerL text.toList) ( "amount due".toList) = true) := by
  refine ⟨⟨by decide, by decide⟩, ?_, ?_, ?_⟩
  · intro text hb
    exact List.countP_pos_iff.mpr ⟨ "bill", by simp [invoice_keywords], hb⟩
  · intro text hb hothers
    have h1 := hothers "invoice" (by simp [nonBillKeywords])
    have h2 := hothers "inv no" (by simp [nonBillKeywords])
    have h3 := hothers "invoice no" (by simp [nonBillKeywords])
    have h4 := hothers "invoice #" (by simp [nonBillKeywords])
    have h5 := hothers "receipt" (by simp [nonBillKeywords])
    have h6 := hothers "payment received" (by simp [nonBillKeywords])
    have h7 := hothers "paid" (by simp [nonBillKeywords])
    have h8 := hothers "statement" (by simp [nonBillKeywords])
    have h9 := hothers "amount due" (by simp [nonBillKeywords])
    simp only [] at hb h1 h2 h3 h4 h5 h6 h7 h8 h9
    simp at hb h1 h2 h3 h4 h5 h6 h7 h8 h9
    have e1 : keywordScore (toLowerL text.toList) invoice_keywords = 1 := by
      simp [keywordScore, invoice_keywords, List.countP_cons, List.countP_nil,
        hb, h1, h2, h3, h4]
    have e2 : keywordScore (toLowerL text.toList) receipt_keywords = 0 := by
      simp [keywordScore, receipt_keywords, List.countP_cons, List.countP_nil,
        h5, h6, h7]
    have e3 : keywordScore (toLowerL text.toList) bill_keywords = 1 := by
      simp [keywordScore, bill_keywords, List.countP_cons, List.countP_nil,
        hb, h8, h9]
    refine ⟨e1, e2, e3, ?_⟩
    rw [classify_spec, e1, e2, e3]
    norm_num
  · intro text h
    by_cases hst : containsSub (toLowerL text.toList) ( "statement".toList) = true
    · exact Or.inl hst
    by_cases had : containsSub (toLowerL text.toList) ( "amount due".toList) = true
    · exact Or.inr had
    exfalso
    have hst' : containsSub (toLowerL text.toList) ( "statement".toList) = false := by
      simpa using hst
    have had' : containsSub (toLowerL text.toList) ( "amount due".toList) = false := by
      simpa using had
    simp at hst' had'
    have hb_le : keywordScore (toLowerL text.toList) bill_keywords ≤
        keywordScore (toLowerL text.toList) invoice_keywords := by
      simp only [keywordScore, bill_keywords, invoice_keywords,
        List.countP_cons, List.countP_nil, hst', had']
      split_ifs <;> omega
    rw [classify_spec] at h
    split_ifs at h with hc1 hc2
    · exact absurd h (by decide)
    · exact absurd h (by decide)
    · exact hc1 ⟨by omega, hb_le⟩

/-- Witness for C10, at the text `"my bill"`, whose only matching
keyword is `"bill"`. -/
theorem bill_keyword_overlap_witness :
    containsSub (toLowerL ( "my bill").toList) ( "bill".toList) = true ∧
    classify_document "my bill" = "invoice" := by
  have hb : containsSub (toLowerL ( "my bill").toList) ( "bill".toList) = true := by decide
  have h := bill_keyword_overlap.2.2.1 "my bill" hb (by decide)
  exact ⟨hb, h.2.2.2⟩

/-- A digit character is not a comma. -/
theorem isDigit_ne_comma {c : Char} (h : c.isDigit = true) : (c == ',') = false := by
  cases hc : c == ','
  · rfl
  · rw [beq_iff_eq] at hc
    subst hc
    exact absurd h (by decide)

/-- A digit character is not a decimal point. -/
theorem isDigit_ne_dot {c : Char} (h : c.isDigit = true) : (c == '.') = false := by
  cases hc : c == '.'
  · rfl
  · rw [beq_iff_eq] at hc
    subst hc
    exact absurd h (by decide)

/-- C3: whenever one of the four priority label patterns matches, its
parsed value (commas stripped) is `_extract_amount`'s answer, the
fallback tiers untouched; on text containing `"Total Amount: $500.00"`
and the unrelated numbers of `"Page 3 of 10"` the result is exactly
`500`. -/
theorem extract_amount_tier1_priority :
    (∀ (text : String) (a : ℚ), tier1Amount text.toList = some a →
      extract_amount text = a) ∧
    extract_amount "Total Amount: $500.00\nPage 3 of 10" = 500 := by
  constructor
  · intro text a h
    simp only [extract_amount, h]
  · simp +decide [extract_amount, tier1Amount, findLabelNum, matchLabelAt, eatWords,
      eatLitCI, eatOptChar, matchNumber, eatDigitsUpTo3, eatCommaGroups, eatDecimal,
      parseAmount, digitsVal]

/-- Witness for C3, at the text `"Total: 250"`. -/
theorem extract_amount_tier1_priority_witness :
    tier1Amount ( "Total: 250").toList = some 250 ∧
    extract_amount "Total: 250" = 250 := by
  have h : tier1Amount ( "Total: 250").toList = some 250 := by
    simp +decide [tier1Amount, findLabelNum, matchLabelAt, eatWords, eatLitCI,
      eatOptChar, matchNumber, eatDigitsUpTo3, eatCommaGroups, eatDecimal,
      parseAmount, digitsVal]
  exact ⟨h, extract_amount_tier1_priority.1 "Total: 250" 250 h⟩

/-- C9: the number group `\d{1,3}(?:,\d{3})*(?:\.\d{2})?` captures at
most three leading digits of an ungrouped digit run, so a labelled
amount without thousands separators is parsed as its leading digits:
`"Total: 1500"` yields `150`, while the comma-grouped `"Total: 1,500"`
yields `1500`. -/
theorem amount_pattern_truncates_digits :
    (∀ (a b c d : Char) (s : List Char),
      a.isDigit = true → b.isDigit = true → c.isDigit = true → d.isDigit = true →
      matchNumber (a :: b :: c :: d :: s) = some ([a, b, c], d :: s)) ∧
    extract_amount "Total: 1500" = 150 ∧
    extract_amount "Total: 1,500" = 1500 := by
  refine ⟨?_, ?eval1, ?eval2⟩
  case eval1 =>
    simp +decide [extract_amount, tier1Amount, findLabelNum, matchLabelAt, eatWords,
      eatLitCI, eatOptChar, matchNumber, eatDigitsUpTo3, eatCommaGroups, eatDecimal,
      parseAmount, digitsVal]
  case eval2 =>
    simp +decide [extract_amount, tier1Amount, findLabelNum, matchLabelAt, eatWords,
      eatLitCI, eatOptChar, matchNumber, eatDigitsUpTo3, eatCommaGroups, eatDecimal,
      parseAmount, digitsVal]
  intro a b c d s ha hb hc hd
  have hd1 : (d == ',') = false := isDigit_ne_comma hd
  have hd2 : (d == '.') = false := isDigit_ne_dot hd
  have e1 : eatDigitsUpTo3 (a :: b :: c :: d :: s) = some ([a, b, c], d :: s) := by
    simp [eatDigitsUpTo3, ha, hb, hc]
  have e2 : eatCommaGroups (d :: s) = ([], d :: s) := by
    rcases s with _ | ⟨x, _ | ⟨y, _ | ⟨z, r⟩⟩⟩ <;> simp [eatCommaGroups, hd1]
  have e3 : eatDecimal (d :: s) = ([], d :: s) := by
    rcases s with _ | ⟨x, _ | ⟨y, r⟩⟩ <;> simp [eatDecimal, hd2]
  simp [matchNumber, e1, e2, e3]

/-- Witness for C9, at the digit run `1500`. -/
theorem amount_pattern_truncates_digits_witness :
    matchNumber [ '1', '5', '0', '0' ] = some ([ '1', '5', '0' ], [ '0' ]) :=
  amount_pattern_truncates_digits.1 '1' '5' '0' '0' []
    (by decide) (by decide) (by decide) (by decide)

/-- A left fold of `max` stays inside the seed-and-list pool. -/
theorem foldlMax_mem (l : List ℚ) (a : ℚ) : l.foldl max a ∈ a :: l := by
  induction l generalizing a with
  | nil => simp
  | cons b t ih =>
    simp only [List.foldl_cons]
    rcases List.mem_cons.mp (ih (max a b)) with h1 | h1
    · rw [h1]
      rcases max_choice a b with h2 | h2 <;> simp [h2]
    · exact List.mem_cons_of_mem _ (List.mem_cons_of_mem _ h1)

/-- Python's `max` over a nonempty list returns one of its elements. -/
theorem listMax_mem {l : List ℚ} (h : l ≠ []) : listMax l ∈ l := by
  match l with
  | [] => exact absurd rfl h
  | a :: t => exact foldlMax_mem t a

/-- Every Tier-2 context amount survives the `> 100` filter. -/
theorem tier2amounts_gt (lines : List (List Char)) :
    ∀ a ∈ tier2amounts lines, (100 : ℚ) < a := by
  intro a ha
  simp only [tier2amounts, List.mem_flatten, List.mem_map] at ha
  obtain ⟨L, ⟨i, hi, rfl⟩, haL⟩ := ha
  by_cases hc : containsSub (toLowerL (lines.getD i [])) ( "total".toList) = true
  · rw [if_pos hc] at haL
    have := (List.mem_filter.mp haL).2
    simpa using this
  · rw [if_neg hc] at haL
    exact absurd haL (List.not_mem_nil a)

/-- Every Tier-3 fallback amount survives the `> 10` filter. -/
theorem tier3amounts_gt (s : List Char) :
    ∀ a ∈ tier3amounts s, (10 : ℚ) < a := by
  intro a ha
  have := (List.mem_filter.mp ha).2
  simpa using this

/-- C5: when no priority label pattern yields an amount,
`_extract_amount` returns the maximum of the above-100 amounts found
near `total` lines, otherwise the maximum of the above-10 fallback
amounts, otherwise exactly `0`; hence the result is never negative. -/
theorem extract_amount_fallback_tiers (text : String)
    (h : tier1Amount text.toList = none) :
    (extract_amount text =
      (if tier2amounts (splitNl text.toList) ≠ [] then
        listMax (tier2amounts (splitNl text.toList))
       else if tier3amounts text.toList ≠ [] then listMax (tier3amounts text.toList)
       else 0)) ∧
    (∀ a ∈ tier2amounts (splitNl text.toList), (100 : ℚ) < a) ∧
    (∀ a ∈ tier3amounts text.toList, (10 : ℚ) < a) ∧
    0 ≤ extract_amount text := by
  have h1 : extract_amount text =
      (if tier2amounts (splitNl text.toList) ≠ [] then
        listMax (tier2amounts (splitNl text.toList))
       else if tier3amounts text.toList ≠ [] then listMax (tier3amounts text.toList)
       else 0) := by
    simp only [extract_amount, h]
  refine ⟨h1, tier2amounts_gt _, tier3amounts_gt _, ?_⟩
  rw [h1]
  by_cases h2 : tier2amounts (splitNl text.toList) ≠ []
  · rw [if_pos h2]
    have := tier2amounts_gt _ _ (listMax_mem h2)
    linarith
  · rw [if_neg h2]
    by_cases h3 : tier3amounts text.toList ≠ []
    · rw [if_pos h3]
      have := tier3amounts_gt _ _ (listMax_mem h3)
      linarith
    · rw [if_neg h3]

/-- Witness for C5, at a text whose only amount sits next to a `total`
line and escapes every Tier-1 pattern. -/
theorem extract_amount_fallback_tiers_witness :
    tier1Amount ( "total due\n$250.00\nfee 5").toList = none ∧
    extract_amount "total due\n$250.00\nfee 5" = 250 ∧
    0 ≤ extract_amount "total due\n$250.00\nfee 5" := by
  have h : tier1Amount ( "total due\n$250.00\nfee 5").toList = none := by decide
  have hm := extract_amount_fallback_tiers "total due\n$250.00\nfee 5" h
  refine ⟨h, ?_, hm.2.2.2⟩
  have hp : parseAmount ( "250.00".toList) = 250 := by
    simp +decide [parseAmount, digitsVal]
  have ht2 : tier2amounts (splitNl ( "total due\n$250.00\nfee 5").toList) =
      List.filter (fun a => (100 : ℚ) < a) [parseAmount ( "250.00".toList)] := by
    have hr : List.range 3 = [0, 1, 2] := by decide
    simp +decide [tier2amounts, splitNl, joinSpaces, toLowerL, containsSub,
      findAllNums, scanWith, matchAmountAt, matchNumber, eatDigitsUpTo3,
      eatCommaGroups, eatDecimal, eatOptChar, hr]
  rw [hm.1, ht2, hp]
  norm_num [listMax]

end InvoiceAnalyzer
